import Mathlib

/-!
# Verification of `pubmed_filter.py`

A shallow embedding of the four pipeline stages of `src/pubmed_filter.py`
(search client, detail fetcher, affiliation filter, report writer) and
proofs of the specification's claims about them.

Modelling conventions:
* Python dictionaries with a fixed documented shape (`Author`, the paper
  summaries consumed by the filter) become structures whose optional keys
  are `Option String`; `dict.get(k, d)` becomes `Option.getD`.
* Raw JSON objects (the wire responses handled by the detail fetcher
  before any shape is imposed) become an inductive `Json` value, and
  `dict.get` / `.values()` become `dictGetD` / `jsonValues`.
* Network access is a function argument `net : HttpRequest → …`; the
  number of calls issued is returned alongside the result.
* `save_to_csv` returns the file write it would perform (`none` when it
  performs no file I/O) together with the messages it prints.
-/

/-- Python `needle in hay` for strings: `needle` starts at some position of
`hay` (the empty needle is contained in everything). -/
def startsWith : List Char → List Char → Bool
  | [], _ => true
  | _ :: _, [] => false
  | c :: n, d :: h => c == d && startsWith n h

/-- Substring containment on character lists, mirroring Python's `in`. -/
def containsSub (needle : List Char) : List Char → Bool
  | [] => needle.isEmpty
  | c :: t => startsWith needle (c :: t) || containsSub needle t

/-- ASCII lowering of a string's characters, mirroring `str.lower()` on the
ASCII inputs this program handles. -/
def lowerChars (s : String) : List Char :=
  s.data.map Char.toLower

/-- The fixed keyword set of `filter_non_academic_authors`
(`src/pubmed_filter.py`, line 53). -/
def academicKeywords : List String :=
  ["university", "college", "institute", "lab", "hospital"]

/-- The guard of line 53: the affiliation is non-empty and its lowercase
form contains none of the academic keywords. -/
def isNonAcademicAff (aff : String) : Bool :=
  (aff != "") && !(academicKeywords.any fun kw => containsSub kw.data (lowerChars aff))

/-- One author entry of a paper summary: the keys `name`, `affiliation`,
`email` are all optional in the wire format (`none` = key absent). -/
structure Author where
  name : Option String
  affiliation : Option String
  email : Option String

/-- One paper summary as consumed by `filter_non_academic_authors`: the
keys `uid`, `title`, `pubdate`, `authors` are all optional. -/
structure Paper where
  uid : Option String
  title : Option String
  pubdate : Option String
  authors : Option (List Author)

/-- A report row is the Python dict literal of lines 61-68: an association
list from field name to field value, in insertion order. -/
abbrev ReportRow := List (String × String)

/-- Classification of one author by the line-53 guard. -/
def nonAcadA (a : Author) : Bool :=
  isNonAcademicAff (a.affiliation.getD "")

/-- The non-empty email of an author, if any (`email = author.get("email", "")`
followed by the `if email:` truthiness test of line 57). -/
def emailOf (a : Author) : Option String :=
  if a.email.getD "" ≠ "" then some (a.email.getD "") else none

/-- One iteration of the author loop of lines 49-58, acting on the state
`(non_academic_authors, company_affiliations, corresponding_email)`. -/
def authorStep (st : List String × List String × Option String) (author : Author) :
    List String × List String × Option String :=
  let affiliation := author.affiliation.getD ""
  let email := author.email.getD ""
  let st1 :=
    if isNonAcademicAff affiliation = true then
      (st.1 ++ [author.name.getD "Unknown"], st.2.1 ++ [affiliation], st.2.2)
    else st
  if email ≠ "" then (st1.1, st1.2.1, some email) else st1

/-- The author loop of lines 45-58, started from `([], [], None)`. -/
def processAuthors (authors : List Author) : List String × List String × Option String :=
  authors.foldl authorStep ([], [], none)

/-- Python `corresponding_email or "N/A"` (line 67): `None` and the empty
string both fall back to the sentinel. -/
def pyOrNA (x : Option String) : String :=
  match x with
  | none => "N/A"
  | some e => if e = "" then "N/A" else e

/-- The per-paper body of `filter_non_academic_authors` (lines 43-68):
the row appended for this paper, or `none` when no non-academic author
was found. -/
def recordReportRow (paper : Paper) : Option ReportRow :=
  let authors := paper.authors.getD []
  let st := processAuthors authors
  if st.1 ≠ [] then
    some [("PubmedID", paper.uid.getD "Unknown"),
          ("Title", paper.title.getD "No title"),
          ("Publication Date", paper.pubdate.getD "Unknown"),
          ("Non-academic Author(s)", String.intercalate ", " st.1),
          ("Company Affiliation(s)", String.intercalate ", " st.2.1),
          ("Corresponding Author Email", pyOrNA st.2.2)]
  else none

/-- `filter_non_academic_authors` (lines 40-69): the outer loop over the
papers, appending one row per retained paper to `results`. -/
def filter_non_academic_authors (papers : List Paper) : List ReportRow :=
  papers.foldl
    (fun results paper =>
      match recordReportRow paper with
      | some row => results ++ [row]
      | none => results)
    []

/-- The six field names of the row dict of lines 61-68, in insertion
order. -/
def reportFields : List String :=
  ["PubmedID", "Title", "Publication Date", "Non-academic Author(s)",
   "Company Affiliation(s)", "Corresponding Author Email"]

/-! ## The wire side: JSON values, search client and detail fetcher -/

/-- A JSON value as the two endpoints return them: strings, arrays and
objects (an object keeps its key order, as Python dicts do). -/
inductive Json where
  | str : String → Json
  | arr : List Json → Json
  | obj : List (String × Json) → Json

/-- Python `d.get(k, default)` on a JSON object given as its key-value
list. -/
def dictGetD (kvs : List (String × Json)) (k : String) (d : Json) : Json :=
  (List.lookup k kvs).getD d

/-- Python `d.get(k, default)` on a JSON value that is expected to be an
object (the documented wire shapes only put objects here). -/
def jsonGetD (j : Json) (k : String) (d : Json) : Json :=
  match j with
  | Json.obj kvs => dictGetD kvs k d
  | _ => d

/-- Python `.values()` of a JSON object, in key order. -/
def jsonValues : Json → List Json
  | Json.obj kvs => kvs.map Prod.snd
  | _ => []

/-- The two endpoint URLs (lines 6-7). -/
def PUBMED_API_URL : String :=
  "https://eutils.ncbi.nlm.nih.gov/entrez/eutils/esearch.fcgi"

def PUBMED_SUMMARY_URL : String :=
  "https://eutils.ncbi.nlm.nih.gov/entrez/eutils/esummary.fcgi"

/-- One HTTP GET request: the URL and its query parameters (the integer
`retmax` value is carried as its decimal rendering). -/
structure HttpRequest where
  url : String
  params : List (String × String)
deriving DecidableEq

/-- The search request `fetch_pubmed_papers` issues (lines 12-18): the
`retmax` cap is the hard-coded literal `10` of line 16. -/
def esearchRequest (query : String) : HttpRequest :=
  { url := PUBMED_API_URL,
    params := [("db", "pubmed"), ("term", query), ("retmode", "json"), ("retmax", "10")] }

/-- `fetch_pubmed_papers` (lines 10-21) run against a network `net` that
maps a request to the parsed JSON object of its response body: returns
`data.get("esearchresult", {}).get("idlist", [])`. -/
def fetch_pubmed_papers (query : String) (net : HttpRequest → List (String × Json)) : Json :=
  jsonGetD (dictGetD (net (esearchRequest query)) "esearchresult" (Json.obj []))
    "idlist" (Json.arr [])

/-- Modelled from the spec: the contract `search(query: string,
max_results: integer)` of section 4.1/6, whose request carries the
caller-supplied cap as its `retmax` parameter. The source function takes
no such parameter, so this definition follows the spec's words and is
compared with `esearchRequest`. -/
def searchSpecRequest (query : String) (max_results : Nat) : HttpRequest :=
  { url := PUBMED_API_URL,
    params := [("db", "pubmed"), ("term", query), ("retmode", "json"),
               ("retmax", toString max_results)] }

/-- The summary request `fetch_paper_details` issues for a non-empty id
list (lines 29-34). -/
def summaryRequest (paper_ids : List String) : HttpRequest :=
  { url := PUBMED_SUMMARY_URL,
    params := [("db", "pubmed"), ("id", String.intercalate "," paper_ids),
               ("retmode", "json")] }

/-- `fetch_paper_details` (lines 24-37) run against a network `net`:
returns the record values of `data.get("result", {})` verbatim, paired
with the number of network calls issued. -/
def fetch_paper_details (paper_ids : List String)
    (net : HttpRequest → List (String × Json)) : List Json × Nat :=
  if paper_ids = [] then ([], 0)
  else
    let data := net (summaryRequest paper_ids)
    (jsonValues (dictGetD data "result" (Json.obj [])), 1)

/-! ## The report writer: CSV encoding -/

/-- Whether Python's `csv` writer quotes a field under `QUOTE_MINIMAL`:
it contains the delimiter, the quote character, or a line-terminator
character. -/
def needsQuote (s : List Char) : Bool :=
  s.any fun c => c == ',' || c == '"' || c == '\r' || c == '\n'

/-- Doubling of embedded quote characters inside a quoted field. -/
def escapeChars : List Char → List Char
  | [] => []
  | c :: t => if c = '"' then '"' :: '"' :: escapeChars t else c :: escapeChars t

/-- One encoded CSV field under `QUOTE_MINIMAL`. -/
def quoteChars (s : List Char) : List Char :=
  if needsQuote s then '"' :: (escapeChars s ++ ['"']) else s

/-- The fields of one CSV record joined by the delimiter. -/
def joinFields : List (List Char) → List Char
  | [] => []
  | [s] => quoteChars s
  | s :: t => quoteChars s ++ ',' :: joinFields t

/-- One CSV record terminated by the writer's `\r\n` line terminator. -/
def rowChars (fields : List (List Char)) : List Char :=
  joinFields fields ++ ['\r', '\n']

/-- The full delimited text the `csv` writer produces for `rows`. -/
def writeRows (rows : List (List String)) : String :=
  String.mk ((rows.map fun r => rowChars (r.map String.data)).flatten)

/-- `save_to_csv` (lines 72-82): `none` in the first component means no
file is opened or written; otherwise the file write performed is
`(filename, content)`. The header comes from the first row's keys and
each row is written as that key list's lookups (`csv.DictWriter`). -/
def save_to_csv (papers : List ReportRow) (filename : String) :
    Option (String × String) × List String :=
  match papers with
  | [] => (none, ["No results to save."])
  | p0 :: _ =>
    let fieldnames := p0.map Prod.fst
    let content :=
      writeRows (fieldnames :: papers.map fun r => fieldnames.map fun f =>
        (List.lookup f r).getD "")
    (some (filename, content), ["Results saved to " ++ filename])

/-! ## A CSV reader, to state the round-trip claim -/

/-- The reader's mode: outside quotes, inside a quoted field, or just
after a quote character inside a quoted field. -/
inductive CsvMode where
  | plain : CsvMode
  | quoted : CsvMode
  | qq : CsvMode
deriving DecidableEq

/-- A character-at-a-time CSV reader. `f` accumulates the current field,
`r` the current record, `rs` the finished records. Bare `\r` outside
quotes is part of the `\r\n` terminator and is skipped. -/
def parseCSVAux : List Char → CsvMode → List Char → List String →
    List (List String) → List (List String)
  | [], m, f, r, rs =>
    if m = CsvMode.plain ∧ f = [] ∧ r = [] then rs else rs ++ [r ++ [String.mk f]]
  | c :: cs, CsvMode.quoted, f, r, rs =>
    if c = '"' then parseCSVAux cs CsvMode.qq f r rs
    else parseCSVAux cs CsvMode.quoted (f ++ [c]) r rs
  | c :: cs, CsvMode.qq, f, r, rs =>
    if c = '"' then parseCSVAux cs CsvMode.quoted (f ++ ['"']) r rs
    else if c = ',' then parseCSVAux cs CsvMode.plain [] (r ++ [String.mk f]) rs
    else if c = '\n' then parseCSVAux cs CsvMode.plain [] [] (rs ++ [r ++ [String.mk f]])
    else if c = '\r' then parseCSVAux cs CsvMode.plain f r rs
    else parseCSVAux cs CsvMode.plain (f ++ [c]) r rs
  | c :: cs, CsvMode.plain, f, r, rs =>
    if c = ',' then parseCSVAux cs CsvMode.plain [] (r ++ [String.mk f]) rs
    else if c = '\n' then parseCSVAux cs CsvMode.plain [] [] (rs ++ [r ++ [String.mk f]])
    else if c = '\r' then parseCSVAux cs CsvMode.plain f r rs
    else if c = '"' ∧ f = [] then parseCSVAux cs CsvMode.quoted f r rs
    else parseCSVAux cs CsvMode.plain (f ++ [c]) r rs

/-- Parse a full CSV text into its records. -/
def parseCSV (s : String) : List (List String) :=
  parseCSVAux s.data CsvMode.plain [] [] []

/-! ## Concrete fixtures used to instantiate the theorems -/

/-- A paper with one non-academic author (Pfizer) and one academic author
(Stanford) whose email comes last. -/
def paperW : Paper :=
  { uid := some "2", title := some "T", pubdate := some "2020 Mar",
    authors := some
      [{ name := some "Alice", affiliation := some "Pfizer Inc.",
         email := some "a@pfizer.com" },
       { name := some "Bob", affiliation := some "Stanford University",
         email := some "b@stanford.edu" }] }

/-- The row the filter produces for `paperW`. -/
def rowW : ReportRow :=
  [("PubmedID", "2"), ("Title", "T"), ("Publication Date", "2020 Mar"),
   ("Non-academic Author(s)", "Alice"), ("Company Affiliation(s)", "Pfizer Inc."),
   ("Corresponding Author Email", "b@stanford.edu")]

/-- A paper whose optional `uid`, `title`, `pubdate` and author `name`,
`email` keys are all absent. -/
def paperDefaults : Paper :=
  { uid := none, title := none, pubdate := none,
    authors := some [{ name := none, affiliation := some "Acme Biotech",
                       email := none }] }

/-- The row the filter produces for `paperDefaults`: every absent key has
been substituted by its documented default. -/
def rowDefaults : ReportRow :=
  [("PubmedID", "Unknown"), ("Title", "No title"), ("Publication Date", "Unknown"),
   ("Non-academic Author(s)", "Unknown"), ("Company Affiliation(s)", "Acme Biotech"),
   ("Corresponding Author Email", "N/A")]

/-- A network returning an empty JSON object for every request. -/
def emptyNet : HttpRequest → List (String × Json) := fun _ => []

/-- A network whose summary response holds one record that is missing
every expected field. -/
def missingFieldsNet : HttpRequest → List (String × Json) :=
  fun _ => [("result", Json.obj [("123", Json.obj [])])]

/-! ## Lemmas about the affiliation filter -/

/-- The `corresponding_email` component of the author loop, started from
`em`. -/
def lastEmail (em : Option String) (authors : List Author) : Option String :=
  authors.foldl
    (fun e a => if a.email.getD "" ≠ "" then some (a.email.getD "") else e) em

/-- `some`-biased choice, used to phrase what the email fold computes. -/
def orElseOpt (x : Option String) (y : Option String) : Option String :=
  match x with
  | some e => some e
  | none => y

theorem foldl_authorStep (authors : List Author) : ∀ ns cs em,
    authors.foldl authorStep (ns, cs, em) =
      (ns ++ ((authors.filter nonAcadA).map fun a => a.name.getD "Unknown"),
       cs ++ ((authors.filter nonAcadA).map fun a => a.affiliation.getD ""),
       lastEmail em authors) := by
  induction authors with
  | nil => intro ns cs em; simp [lastEmail]
  | cons a t ih =>
    intro ns cs em
    rw [List.foldl_cons]
    by_cases hna : nonAcadA a = true
    · by_cases he : a.email.getD "" = ""
      · rw [show authorStep (ns, cs, em) a =
            (ns ++ [a.name.getD "Unknown"], cs ++ [a.affiliation.getD ""], em) by
          simp [authorStep, nonAcadA] at hna ⊢; simp [hna, he]]
        rw [ih]
        simp [List.filter_cons, hna, lastEmail, he]
      · rw [show authorStep (ns, cs, em) a =
            (ns ++ [a.name.getD "Unknown"], cs ++ [a.affiliation.getD ""],
              some (a.email.getD "")) by
          simp [authorStep, nonAcadA] at hna ⊢; simp [hna, he]]
        rw [ih]
        simp [List.filter_cons, hna, lastEmail, he]
    · by_cases he : a.email.getD "" = ""
      · rw [show authorStep (ns, cs, em) a = (ns, cs, em) by
          simp [authorStep, nonAcadA] at hna ⊢; simp [hna, he]]
        rw [ih]
        simp [List.filter_cons, hna, lastEmail, he]
      · rw [show authorStep (ns, cs, em) a = (ns, cs, some (a.email.getD "")) by
          simp [authorStep, nonAcadA] at hna ⊢; simp [hna, he]]
        rw [ih]
        simp [List.filter_cons, hna, lastEmail, he]

theorem processAuthors_eq (authors : List Author) :
    processAuthors authors =
      (((authors.filter nonAcadA).map fun a => a.name.getD "Unknown"),
       ((authors.filter nonAcadA).map fun a => a.affiliation.getD ""),
       lastEmail none authors) := by
  have h := foldl_authorStep authors [] [] none
  simpa [processAuthors] using h

theorem getLast?_cons_orElse (l : List String) (e : String) :
    (e :: l).getLast? = orElseOpt l.getLast? (some e) := by
  induction l with
  | nil => rfl
  | cons b t ih =>
    rw [List.getLast?_cons_cons]
    cases h : (b :: t).getLast? with
    | none => simp [List.getLast?_cons] at h
    | some x => simp [orElseOpt, h]

theorem lastEmail_eq (authors : List Author) : ∀ em,
    lastEmail em authors = orElseOpt (authors.filterMap emailOf).getLast? em := by
  induction authors with
  | nil => intro em; rfl
  | cons a t ih =>
    intro em
    by_cases he : a.email.getD "" = ""
    · have hstep : lastEmail em (a :: t) = lastEmail em t := by
        simp [lastEmail, he]
      have hem : emailOf a = none := by simp [emailOf, he]
      rw [hstep, ih, List.filterMap_cons, hem]
    · have hstep : lastEmail em (a :: t) = lastEmail (some (a.email.getD "")) t := by
        simp [lastEmail, he]
      have hem : emailOf a = some (a.email.getD "") := by simp [emailOf, he]
      rw [hstep, ih, List.filterMap_cons, hem, getLast?_cons_orElse]
      cases h : ((t.filterMap emailOf).getLast?) with
      | none => simp [orElseOpt]
      | some x => simp [orElseOpt]

theorem mem_of_getLast?_eq_some {l : List String} {e : String}
    (h : l.getLast? = some e) : e ∈ l := by
  have hx : e ∈ l.getLast? := by rw [h]; rfl
  rcases List.mem_getLast?_eq_getLast hx with ⟨hne, rfl⟩
  exact List.getLast_mem hne

theorem mem_filterMap_emailOf_ne (authors : List Author) (e : String)
    (h : e ∈ authors.filterMap emailOf) : e ≠ "" := by
  rcases List.mem_filterMap.mp h with ⟨a, _, hae⟩
  by_cases hc : a.email.getD "" ≠ ""
  · simp [emailOf, hc] at hae
    intro hcon
    exact hc (hae ▸ hcon)
  · simp [emailOf, hc] at hae

/-- What `corresponding_email or "N/A"` yields: the last non-empty email,
or the sentinel. -/
theorem pyOrNA_lastEmail (authors : List Author) :
    pyOrNA (lastEmail none authors) =
      ((authors.filterMap emailOf).getLast?).getD "N/A" := by
  rw [lastEmail_eq]
  cases h : ((authors.filterMap emailOf).getLast?) with
  | none => rfl
  | some e =>
    have he : e ≠ "" :=
      mem_filterMap_emailOf_ne authors e (mem_of_getLast?_eq_some h)
    simp [orElseOpt, pyOrNA, he]

/-- What `recordReportRow` returns when it returns a row. -/
theorem recordReportRow_eq_some (p : Paper) (r : ReportRow)
    (h : recordReportRow p = some r) :
    (processAuthors (p.authors.getD [])).1 ≠ [] ∧
    r = [("PubmedID", p.uid.getD "Unknown"),
         ("Title", p.title.getD "No title"),
         ("Publication Date", p.pubdate.getD "Unknown"),
         ("Non-academic Author(s)",
           String.intercalate ", " (processAuthors (p.authors.getD [])).1),
         ("Company Affiliation(s)",
           String.intercalate ", " (processAuthors (p.authors.getD [])).2.1),
         ("Corresponding Author Email",
           pyOrNA (processAuthors (p.authors.getD [])).2.2)] := by
  by_cases hne : (processAuthors (p.authors.getD [])).1 ≠ []
  · refine ⟨hne, ?_⟩
    simp only [recordReportRow, if_pos hne] at h
    exact (Option.some_injective _ h).symm
  · simp only [recordReportRow, if_neg hne] at h
    exact absurd h (by simp)

theorem recordReportRow_isSome (p : Paper) :
    (recordReportRow p).isSome = true ↔
      (processAuthors (p.authors.getD [])).1 ≠ [] := by
  by_cases hne : (processAuthors (p.authors.getD [])).1 ≠ []
  · simp [recordReportRow, if_pos hne, hne]
  · simp [recordReportRow, if_neg hne, hne]

theorem filter_non_academic_authors_go (papers : List Paper) : ∀ acc,
    papers.foldl
      (fun results paper =>
        match recordReportRow paper with
        | some row => results ++ [row]
        | none => results) acc
      = acc ++ papers.filterMap recordReportRow := by
  induction papers with
  | nil => intro acc; simp
  | cons p t ih =>
    intro acc
    rw [List.foldl_cons]
    cases h : recordReportRow p with
    | none => rw [ih]; simp [List.filterMap_cons, h]
    | some row => rw [ih]; simp [List.filterMap_cons, h]

theorem filter_non_academic_authors_eq_filterMap (papers : List Paper) :
    filter_non_academic_authors papers = papers.filterMap recordReportRow := by
  have h := filter_non_academic_authors_go papers []
  simpa [filter_non_academic_authors] using h

/-! ## Lemmas about the CSV encoding -/

theorem parse_escape (s : List Char) : ∀ rest f r rs,
    parseCSVAux (escapeChars s ++ rest) CsvMode.quoted f r rs =
      parseCSVAux rest CsvMode.quoted (f ++ s) r rs := by
  induction s with
  | nil => intro rest f r rs; simp [escapeChars]
  | cons c s ih =>
    intro rest f r rs
    by_cases hc : c = '"'
    · subst hc
      rw [show escapeChars ('"' :: s) = '"' :: '"' :: escapeChars s from rfl]
      rw [List.cons_append, List.cons_append]
      rw [show parseCSVAux ('"' :: ('"' :: (escapeChars s ++ rest)))
            CsvMode.quoted f r rs =
          parseCSVAux ('"' :: (escapeChars s ++ rest)) CsvMode.qq f r rs by
        simp [parseCSVAux]]
      rw [show parseCSVAux ('"' :: (escapeChars s ++ rest)) CsvMode.qq f r rs =
          parseCSVAux (escapeChars s ++ rest) CsvMode.quoted (f ++ ['"']) r rs by
        simp [parseCSVAux]]
      rw [ih]
      simp
    · rw [show escapeChars (c :: s) = c :: escapeChars s by
        simp [escapeChars, hc]]
      rw [List.cons_append]
      rw [show parseCSVAux (c :: (escapeChars s ++ rest)) CsvMode.quoted f r rs =
          parseCSVAux (escapeChars s ++ rest) CsvMode.quoted (f ++ [c]) r rs by
        simp [parseCSVAux, hc]]
      rw [ih]
      simp

theorem needsQuote_false {s : List Char} (h : needsQuote s = false) :
    ∀ c ∈ s, c ≠ ',' ∧ c ≠ '"' ∧ c ≠ '\r' ∧ c ≠ '\n' := by
  intro c hc
  have h' : ¬(needsQuote s = true) := by simp [h]
  simp only [needsQuote, List.any_eq_true, not_exists] at h'
  have := h' c
  simp only [hc, true_and] at this
  constructor
  · intro he; exact this (by simp [he])
  constructor
  · intro he; exact this (by simp [he])
  constructor
  · intro he; exact this (by simp [he])
  · intro he; exact this (by simp [he])

theorem parse_plain_move (s : List Char)
    (h : ∀ c ∈ s, c ≠ ',' ∧ c ≠ '"' ∧ c ≠ '\r' ∧ c ≠ '\n') : ∀ rest f r rs,
    parseCSVAux (s ++ rest) CsvMode.plain f r rs =
      parseCSVAux rest CsvMode.plain (f ++ s) r rs := by
  induction s with
  | nil => intro rest f r rs; simp
  | cons c s ih =>
    intro rest f r rs
    obtain ⟨h1, h2, h3, h4⟩ := h c (List.mem_cons_self c s)
    rw [List.cons_append]
    rw [show parseCSVAux (c :: (s ++ rest)) CsvMode.plain f r rs =
        parseCSVAux (s ++ rest) CsvMode.plain (f ++ [c]) r rs by
      simp only [parseCSVAux]
      rw [if_neg h1, if_neg h4, if_neg h3, if_neg (by intro hcon; exact h2 hcon.1)]]
    rw [ih (fun d hd => h d (List.mem_cons_of_mem c hd))]
    simp

theorem parse_field_comma (s : List Char) (rest : List Char) (r : List String)
    (rs : List (List String)) :
    parseCSVAux (quoteChars s ++ ',' :: rest) CsvMode.plain [] r rs =
      parseCSVAux rest CsvMode.plain [] (r ++ [String.mk s]) rs := by
  by_cases hq : needsQuote s = true
  · rw [show quoteChars s = '"' :: (escapeChars s ++ ['"']) by
      simp [quoteChars, hq]]
    rw [List.cons_append]
    rw [show parseCSVAux ('"' :: ((escapeChars s ++ ['"']) ++ ',' :: rest))
          CsvMode.plain [] r rs =
        parseCSVAux ((escapeChars s ++ ['"']) ++ ',' :: rest)
          CsvMode.quoted [] r rs by
      simp [parseCSVAux]]
    rw [List.append_assoc, List.singleton_append, parse_escape]
    rw [show parseCSVAux ('"' :: ',' :: rest) CsvMode.quoted ([] ++ s) r rs =
        parseCSVAux (',' :: rest) CsvMode.qq ([] ++ s) r rs by
      simp [parseCSVAux]]
    rw [show parseCSVAux (',' :: rest) CsvMode.qq ([] ++ s) r rs =
        parseCSVAux rest CsvMode.plain [] (r ++ [String.mk ([] ++ s)]) rs by
      simp [parseCSVAux]]
    simp
  · rw [show quoteChars s = s by simp [quoteChars, hq]]
    rw [parse_plain_move s (needsQuote_false (by simpa using hq))]
    rw [show parseCSVAux (',' :: rest) CsvMode.plain ([] ++ s) r rs =
        parseCSVAux rest CsvMode.plain [] (r ++ [String.mk ([] ++ s)]) rs by
      simp [parseCSVAux]]
    simp

theorem parse_field_crlf (s : List Char) (rest : List Char) (r : List String)
    (rs : List (List String)) :
    parseCSVAux (quoteChars s ++ '\r' :: '\n' :: rest) CsvMode.plain [] r rs =
      parseCSVAux rest CsvMode.plain [] [] (rs ++ [r ++ [String.mk s]]) := by
  by_cases hq : needsQuote s = true
  · rw [show quoteChars s = '"' :: (escapeChars s ++ ['"']) by
      simp [quoteChars, hq]]
    rw [List.cons_append]
    rw [show parseCSVAux ('"' :: ((escapeChars s ++ ['"']) ++ '\r' :: '\n' :: rest))
          CsvMode.plain [] r rs =
        parseCSVAux ((escapeChars s ++ ['"']) ++ '\r' :: '\n' :: rest)
          CsvMode.quoted [] r rs by
      simp [parseCSVAux]]
    rw [List.append_assoc, List.singleton_append, parse_escape]
    rw [show parseCSVAux ('"' :: '\r' :: '\n' :: rest) CsvMode.quoted ([] ++ s) r rs =
        parseCSVAux ('\r' :: '\n' :: rest) CsvMode.qq ([] ++ s) r rs by
      simp [parseCSVAux]]
    rw [show parseCSVAux ('\r' :: '\n' :: rest) CsvMode.qq ([] ++ s) r rs =
        parseCSVAux ('\n' :: rest) CsvMode.plain ([] ++ s) r rs by
      simp [parseCSVAux]]
    rw [show parseCSVAux ('\n' :: rest) CsvMode.plain ([] ++ s) r rs =
        parseCSVAux rest CsvMode.plain [] [] (rs ++ [r ++ [String.mk ([] ++ s)]]) by
      simp [parseCSVAux]]
    simp
  · rw [show quoteChars s = s by simp [quoteChars, hq]]
    rw [parse_plain_move s (needsQuote_false (by simpa using hq))]
    rw [show parseCSVAux ('\r' :: '\n' :: rest) CsvMode.plain ([] ++ s) r rs =
        parseCSVAux ('\n' :: rest) CsvMode.plain ([] ++ s) r rs by
      simp [parseCSVAux]]
    rw [show parseCSVAux ('\n' :: rest) CsvMode.plain ([] ++ s) r rs =
        parseCSVAux rest CsvMode.plain [] [] (rs ++ [r ++ [String.mk ([] ++ s)]]) by
      simp [parseCSVAux]]
    simp

theorem parse_row (fs : List (List Char)) (hne : fs ≠ []) : ∀ rest r rs,
    parseCSVAux (joinFields fs ++ '\r' :: '\n' :: rest) CsvMode.plain [] r rs =
      parseCSVAux rest CsvMode.plain [] [] (rs ++ [r ++ fs.map String.mk]) := by
  induction fs with
  | nil => exact absurd rfl hne
  | cons s t ih =>
    intro rest r rs
    cases t with
    | nil =>
      rw [show joinFields [s] = quoteChars s from rfl, parse_field_crlf]
      simp
    | cons s2 t2 =>
      rw [show joinFields (s :: s2 :: t2) = quoteChars s ++ ',' :: joinFields (s2 :: t2)
        from rfl]
      rw [List.append_assoc, List.cons_append, parse_field_comma]
      rw [ih (by simp)]
      simp

theorem parse_rows (rows : List (List (List Char)))
    (h : ∀ row ∈ rows, row ≠ []) : ∀ rs,
    parseCSVAux ((rows.map rowChars).flatten) CsvMode.plain [] [] rs =
      rs ++ rows.map fun fs => fs.map String.mk := by
  induction rows with
  | nil => intro rs; simp [parseCSVAux]
  | cons fs t ih =>
    intro rs
    rw [List.map_cons, List.flatten_cons]
    rw [show rowChars fs = joinFields fs ++ ['\r', '\n'] from rfl]
    rw [List.append_assoc]
    rw [show (['\r', '\n'] : List Char) ++ (t.map rowChars).flatten =
        '\r' :: '\n' :: (t.map rowChars).flatten from rfl]
    rw [parse_row fs (h fs (List.mem_cons_self fs t))]
    rw [ih (fun row hr => h row (List.mem_cons_of_mem fs hr))]
    simp

/-- The round trip at the heart of the report writer: the CSV reader
reconstructs exactly the rows the writer serialized, provided every row
has at least one field. -/
theorem parseCSV_writeRows (rows : List (List String))
    (h : ∀ r ∈ rows, r ≠ []) : parseCSV (writeRows rows) = rows := by
  show parseCSVAux (String.mk ((rows.map fun r =>
    rowChars (r.map String.data)).flatten)).data CsvMode.plain [] [] [] = rows
  rw [show (String.mk ((rows.map fun r => rowChars (r.map String.data)).flatten)).data =
      (rows.map fun r => rowChars (r.map String.data)).flatten from rfl]
  rw [show (rows.map fun r => rowChars (r.map String.data)) =
      ((rows.map fun r => r.map String.data).map rowChars) by
    rw [List.map_map]; rfl]
  rw [parse_rows (rows.map fun r => r.map String.data)
    (by
      intro row hr
      rcases List.mem_map.mp hr with ⟨r0, hr0, rfl⟩
      simpa using h r0 hr0)]
  simp only [List.nil_append, List.map_map]
  have : (fun (r : List String) => (r.map String.data).map String.mk) = id := by
    funext r
    rw [List.map_map]
    simp only [id]
    have : (String.mk ∘ String.data) = (id : String → String) := by
      funext s
      rfl
    rw [this, List.map_id]
  calc (rows.map fun r => List.map String.mk (List.map String.data r)) = rows.map id := by
        rw [show (fun (r : List String) => List.map String.mk (List.map String.data r)) =
          (id : List String → List String) from this]
    _ = rows := List.map_id rows

/-! ## Helper characterizations for the claim theorems -/

theorem isNonAcademicAff_iff (aff : String) :
    isNonAcademicAff aff = true ↔
      aff ≠ "" ∧ ∀ kw ∈ academicKeywords,
        containsSub kw.data (lowerChars aff) = false := by
  constructor
  · intro h
    simp only [isNonAcademicAff, Bool.and_eq_true, bne_iff_ne, ne_eq,
      Bool.not_eq_true', List.any_eq_false] at h
    exact ⟨h.1, fun kw hkw => by simpa using h.2 kw hkw⟩
  · intro h
    simp only [isNonAcademicAff, Bool.and_eq_true, bne_iff_ne, ne_eq,
      Bool.not_eq_true', List.any_eq_false]
    exact ⟨h.1, fun kw hkw => by simpa using h.2 kw hkw⟩

theorem reportRow_keys (p : Paper) (r : ReportRow)
    (h : recordReportRow p = some r) : r.map Prod.fst = reportFields := by
  obtain ⟨-, rfl⟩ := recordReportRow_eq_some p r h
  rfl

theorem reportRow_lookup_values (p : Paper) (r : ReportRow)
    (h : recordReportRow p = some r) :
    reportFields.map (fun f => (List.lookup f r).getD "") = r.map Prod.snd := by
  obtain ⟨-, rfl⟩ := recordReportRow_eq_some p r h
  rfl

theorem save_to_csv_cons (r0 : ReportRow) (rest : List ReportRow) (filename : String) :
    save_to_csv (r0 :: rest) filename =
      (some (filename, writeRows ((r0.map Prod.fst) ::
        (r0 :: rest).map fun r => (r0.map Prod.fst).map fun f =>
          (List.lookup f r).getD "")),
       ["Results saved to " ++ filename]) := rfl

/-! ## Claim theorems -/

/-- C1: `filter_non_academic_authors` emits exactly one row for a record
iff it has at least one author whose affiliation is non-empty and whose
lowercased affiliation contains none of the academic keywords; records
with no such author yield no row. -/
theorem c1_row_emitted_iff (p : Paper) :
    (filter_non_academic_authors [p]).length =
      (if (recordReportRow p).isSome = true then 1 else 0) ∧
    ((recordReportRow p).isSome = true ↔
      ∃ a ∈ p.authors.getD [], a.affiliation.getD "" ≠ "" ∧
        ∀ kw ∈ academicKeywords,
          containsSub kw.data (lowerChars (a.affiliation.getD "")) = false) := by
  constructor
  · rw [filter_non_academic_authors_eq_filterMap]
    cases h : recordReportRow p with
    | none => simp [List.filterMap_cons, h]
    | some r => simp [List.filterMap_cons, h]
  · rw [recordReportRow_isSome, processAuthors_eq]
    constructor
    · intro h
      have hf : (p.authors.getD []).filter nonAcadA ≠ [] := by
        intro hcon
        simp only [hcon, List.map_nil, ne_eq, not_true_eq_false] at h
      rcases List.exists_mem_of_ne_nil _ hf with ⟨a, ha⟩
      have hm := List.mem_filter.mp ha
      rcases (isNonAcademicAff_iff (a.affiliation.getD "")).mp hm.2 with ⟨h1, h2⟩
      exact ⟨a, hm.1, h1, h2⟩
    · rintro ⟨a, ha, h1, h2⟩
      have hna : nonAcadA a = true :=
        (isNonAcademicAff_iff (a.affiliation.getD "")).mpr ⟨h1, h2⟩
      have hf : a ∈ (p.authors.getD []).filter nonAcadA :=
        List.mem_filter.mpr ⟨ha, hna⟩
      intro hcon
      rw [List.map_eq_nil_iff] at hcon
      rw [hcon] at hf
      exact absurd hf (List.not_mem_nil a)

/-- C1 witness: a record with one Pfizer author and one Stanford author is
emitted exactly once, and the emission criterion holds of it. -/
theorem c1_witness :
    (filter_non_academic_authors [paperW]).length =
      (if (recordReportRow paperW).isSome = true then 1 else 0) ∧
    ((recordReportRow paperW).isSome = true ↔
      ∃ a ∈ paperW.authors.getD [], a.affiliation.getD "" ≠ "" ∧
        ∀ kw ∈ academicKeywords,
          containsSub kw.data (lowerChars (a.affiliation.getD "")) = false) :=
  c1_row_emitted_iff paperW

/-- C2: for every retained record, the "Corresponding Author Email" field
equals the last non-empty email among all of the record's authors in list
order (`emailOf` never consults the affiliation), or "N/A" when there is
none. -/
theorem c2_corresponding_email (p : Paper) (r : ReportRow)
    (h : recordReportRow p = some r) :
    List.lookup "Corresponding Author Email" r =
      some ((((p.authors.getD []).filterMap emailOf).getLast?).getD "N/A") := by
  obtain ⟨-, rfl⟩ := recordReportRow_eq_some p r h
  show some (pyOrNA (processAuthors (p.authors.getD [])).2.2) = _
  rw [processAuthors_eq]
  rw [show ((((p.authors.getD []).filter nonAcadA).map fun a => a.name.getD "Unknown"),
      (((p.authors.getD []).filter nonAcadA).map fun a => a.affiliation.getD ""),
      lastEmail none (p.authors.getD [])).2.2 =
      lastEmail none (p.authors.getD []) from rfl]
  rw [pyOrNA_lastEmail]

/-- C2 witness: for `paperW` the field holds the academic (Stanford)
author's email, the last non-empty one. -/
theorem c2_witness :
    recordReportRow paperW = some rowW ∧
    List.lookup "Corresponding Author Email" rowW =
      some ((((paperW.authors.getD []).filterMap emailOf).getLast?).getD "N/A") :=
  ⟨by decide, c2_corresponding_email paperW rowW (by decide)⟩

/-- C3: the non-academic author-name list and the affiliation list are the
two images of the same filtered author list, so they have equal lengths
and the i-th affiliation belongs to the i-th listed author. -/
theorem c3_aligned_lists :
    (∀ authors : List Author,
      (processAuthors authors).1 =
        ((authors.filter nonAcadA).map fun a => a.name.getD "Unknown") ∧
      (processAuthors authors).2.1 =
        ((authors.filter nonAcadA).map fun a => a.affiliation.getD "") ∧
      (processAuthors authors).1.length = (processAuthors authors).2.1.length) ∧
    (∀ p r, recordReportRow p = some r →
      List.lookup "Non-academic Author(s)" r =
        some (String.intercalate ", " (processAuthors (p.authors.getD [])).1) ∧
      List.lookup "Company Affiliation(s)" r =
        some (String.intercalate ", " (processAuthors (p.authors.getD [])).2.1)) := by
  constructor
  · intro authors
    rw [processAuthors_eq]
    simp
  · intro p r h
    obtain ⟨-, rfl⟩ := recordReportRow_eq_some p r h
    exact ⟨rfl, rfl⟩

/-- C3 witness: the two lists of `paperW`, and the joined fields of its
row. -/
theorem c3_witness :
    (processAuthors (paperW.authors.getD [])).1 =
      (((paperW.authors.getD []).filter nonAcadA).map fun a => a.name.getD "Unknown") ∧
    List.lookup "Non-academic Author(s)" rowW =
      some (String.intercalate ", " (processAuthors (paperW.authors.getD [])).1) :=
  ⟨(c3_aligned_lists.1 (paperW.authors.getD [])).1,
   (c3_aligned_lists.2 paperW rowW (by decide)).1⟩

/-- C4: with an empty identifier list `fetch_paper_details` returns an
empty sequence and issues no network call; with a non-empty list it
issues exactly one. -/
theorem c4_empty_ids_short_circuit :
    (∀ net, fetch_paper_details [] net = ([], 0)) ∧
    (∀ paper_ids net, paper_ids ≠ [] → (fetch_paper_details paper_ids net).2 = 1) := by
  constructor
  · intro net; rfl
  · intro paper_ids net h
    simp [fetch_paper_details, h]

/-- C4 witness: the empty and singleton identifier lists against a
network constant. -/
theorem c4_witness :
    fetch_paper_details [] emptyNet = ([], 0) ∧
    (fetch_paper_details ["17284678"] emptyNet).2 = 1 :=
  ⟨c4_empty_ids_short_circuit.1 emptyNet,
   c4_empty_ids_short_circuit.2 ["17284678"] emptyNet (by decide)⟩

/-- C5 counterexample: against a summary response whose single record has
no fields at all, the fetch stage returns that record verbatim — its
key list is empty, so it carries neither the identifier default
"Unknown" nor the title default "No title". -/
theorem c5_counterexample :
    (fetch_paper_details ["123"] missingFieldsNet).1 = [Json.obj []] ∧
    jsonGetD (Json.obj []) "uid" (Json.str "ABSENT") = Json.str "ABSENT" ∧
    Json.obj [] ≠ Json.obj [("uid", Json.str "Unknown"), ("title", Json.str "No title")] :=
  ⟨rfl, rfl, by simp⟩

/-- C5 amended: `fetch_paper_details` returns the per-record values of the
response's `result` map verbatim, with no default substitution; the
documented defaults (identifier → "Unknown", title → "No title") are
applied by `filter_non_academic_authors` when the report row is built. -/
theorem c5_defaults_applied_in_filter :
    (∀ paper_ids net, paper_ids ≠ [] →
      (fetch_paper_details paper_ids net).1 =
        jsonValues (dictGetD (net (summaryRequest paper_ids)) "result" (Json.obj []))) ∧
    (∀ p r, recordReportRow p = some r →
      (p.uid = none → List.lookup "PubmedID" r = some "Unknown") ∧
      (p.title = none → List.lookup "Title" r = some "No title")) := by
  constructor
  · intro paper_ids net h
    simp [fetch_paper_details, h]
  · intro p r h
    obtain ⟨-, rfl⟩ := recordReportRow_eq_some p r h
    constructor
    · intro hu
      show some (p.uid.getD "Unknown") = some "Unknown"
      rw [hu]; rfl
    · intro ht
      show some (p.title.getD "No title") = some "No title"
      rw [ht]; rfl

/-- C5 witness: a paper with absent `uid` and `title` keys whose row
carries the defaults, applied at the filter stage. -/
theorem c5_witness :
    recordReportRow paperDefaults = some rowDefaults ∧
    List.lookup "PubmedID" rowDefaults = some "Unknown" ∧
    List.lookup "Title" rowDefaults = some "No title" :=
  ⟨by decide,
   (c5_defaults_applied_in_filter.2 paperDefaults rowDefaults (by decide)).1 (by decide),
   (c5_defaults_applied_in_filter.2 paperDefaults rowDefaults (by decide)).2 (by decide)⟩

/-- C6: called with an empty row sequence, `save_to_csv` prints the
"no results" notice and performs no file write, whatever destination
path was supplied. -/
theorem c6_empty_rows_no_file (filename : String) :
    save_to_csv [] filename = (none, ["No results to save."]) := rfl

/-- C6 witness: the empty report against a concrete destination path. -/
theorem c6_witness :
    save_to_csv [] "papers.csv" = (none, ["No results to save."]) :=
  c6_empty_rows_no_file "papers.csv"

/-- C7: writing a non-empty filter output with `save_to_csv` produces the
delimited text of the header (the first row's keys, which are the six
report fields) followed by each row's values, and re-parsing that text
reconstructs the header row plus exactly the original rows' field
values. -/
theorem c7_roundtrip (papers : List Paper) (filename : String)
    (h : filter_non_academic_authors papers ≠ []) :
    (save_to_csv (filter_non_academic_authors papers) filename).1 =
      some (filename, writeRows (reportFields ::
        (filter_non_academic_authors papers).map fun r => r.map Prod.snd)) ∧
    parseCSV (writeRows (reportFields ::
        (filter_non_academic_authors papers).map fun r => r.map Prod.snd)) =
      reportFields ::
        (filter_non_academic_authors papers).map fun r => r.map Prod.snd := by
  have hrows : ∀ r ∈ filter_non_academic_authors papers,
      ∃ p, recordReportRow p = some r := by
    intro r hr
    rw [filter_non_academic_authors_eq_filterMap] at hr
    rcases List.mem_filterMap.mp hr with ⟨p, -, hp⟩
    exact ⟨p, hp⟩
  constructor
  · cases hfa : filter_non_academic_authors papers with
    | nil => exact absurd hfa h
    | cons r0 rest =>
      rcases hrows r0 (by rw [hfa]; exact List.mem_cons_self r0 rest) with ⟨p0, hp0⟩
      rw [save_to_csv_cons, reportRow_keys p0 r0 hp0]
      have hvals : ((r0 :: rest).map fun r => reportFields.map fun f =>
          (List.lookup f r).getD "") = (r0 :: rest).map fun r => r.map Prod.snd := by
        apply List.map_congr_left
        intro r hr
        rcases hrows r (by rw [hfa]; exact hr) with ⟨p, hp⟩
        exact reportRow_lookup_values p r hp
      rw [hvals]
  · apply parseCSV_writeRows
    intro r hr
    rcases List.mem_cons.mp hr with hh | ht
    · rw [hh]; decide
    · rcases List.mem_map.mp ht with ⟨r0, hr0, rfl⟩
      rcases hrows r0 hr0 with ⟨p, hp⟩
      have hk := reportRow_keys p r0 hp
      intro hcon
      rw [List.map_eq_nil_iff] at hcon
      rw [hcon] at hk
      exact absurd hk.symm (by decide)

/-- C7 witness: one retained paper; its CSV text re-parses to the header
plus that single row's values. -/
theorem c7_sat :
    filter_non_academic_authors [paperW] ≠ [] ∧
    parseCSV (writeRows (reportFields ::
        (filter_non_academic_authors [paperW]).map fun r => r.map Prod.snd)) =
      reportFields ::
        (filter_non_academic_authors [paperW]).map fun r => r.map Prod.snd :=
  ⟨by decide, (c7_roundtrip [paperW] "papers.csv" (by decide)).2⟩

/-- C8 counterexample: the request the code issues for a supplied cap of 5
differs from the spec's contract `search(query, max_results)` — the code
has no cap parameter and always sends `retmax=10`. -/
theorem c8_counterexample : esearchRequest "cancer" ≠ searchSpecRequest "cancer" 5 := by
  decide

/-- C8 amended: the result cap is hard-coded, not caller-configurable —
for every query the issued search request carries `retmax=10`, which is
the spec contract instantiated only at its default cap of 10. -/
theorem c8_retmax_fixed (query : String) :
    List.lookup "retmax" (esearchRequest query).params = some "10" ∧
    esearchRequest query = searchSpecRequest query 10 := by
  constructor
  · rfl
  · show HttpRequest.mk PUBMED_API_URL _ = HttpRequest.mk PUBMED_API_URL _
    congr 1

/-- C9: the filter is an order-preserving, non-duplicating selection — it
equals `List.filterMap` of the per-record row function, so each record
contributes at most one row, rows keep the records' relative order, and
the output is never longer than the input. -/
theorem c9_order_preserving (papers : List Paper) :
    filter_non_academic_authors papers = papers.filterMap recordReportRow ∧
    (filter_non_academic_authors papers).length ≤ papers.length := by
  refine ⟨filter_non_academic_authors_eq_filterMap papers, ?_⟩
  rw [filter_non_academic_authors_eq_filterMap]
  exact List.length_filterMap_le recordReportRow papers

/-- C10: every produced row has exactly the six report fields in their
fixed order (so the header `save_to_csv` takes from the first row matches
every row), a missing publication date becomes "Unknown", and a missing
author name is listed as "Unknown". -/
theorem c10_row_schema :
    (∀ papers r, r ∈ filter_non_academic_authors papers →
      r.map Prod.fst = reportFields) ∧
    (∀ p r, recordReportRow p = some r → p.pubdate = none →
      List.lookup "Publication Date" r = some "Unknown") ∧
    (∀ authors : List Author, (processAuthors authors).1 =
      ((authors.filter nonAcadA).map fun a => a.name.getD "Unknown")) ∧
    (∀ papers r r', r ∈ filter_non_academic_authors papers →
      r' ∈ filter_non_academic_authors papers →
      r.map Prod.fst = r'.map Prod.fst) := by
  have hkeys : ∀ papers r, r ∈ filter_non_academic_authors papers →
      r.map Prod.fst = reportFields := by
    intro papers r hr
    rw [filter_non_academic_authors_eq_filterMap] at hr
    rcases List.mem_filterMap.mp hr with ⟨p, -, hp⟩
    exact reportRow_keys p r hp
  refine ⟨hkeys, ?_, ?_, ?_⟩
  · intro p r h hpd
    obtain ⟨-, rfl⟩ := recordReportRow_eq_some p r h
    show some (p.pubdate.getD "Unknown") = some "Unknown"
    rw [hpd]; rfl
  · intro authors
    rw [processAuthors_eq]
  · intro papers r r' hr hr'
    rw [hkeys papers r hr, hkeys papers r' hr']

/-- C10 witness: the row of a paper with absent publication date and
author name carries the six fields and the defaults. -/
theorem c10_witness :
    rowDefaults ∈ filter_non_academic_authors [paperDefaults] ∧
    rowDefaults.map Prod.fst = reportFields ∧
    List.lookup "Publication Date" rowDefaults = some "Unknown" :=
  ⟨by decide,
   c10_row_schema.1 [paperDefaults] rowDefaults (by decide),
   c10_row_schema.2.1 paperDefaults rowDefaults (by decide) (by decide)⟩
